import Mathlib

/- Shallow embedding, over exact rational scalars, of the DG advection solver in
src/advection2D.cc (class advection2D): the face-index mapping set up in the
constructor, the per-cell operator assembly of assemble_system, the container
sizing of setup_system, the boundary-id assignment of set_boundary_ids, and the
face traversal of update.  External deal.II collaborators (mesh, shape
evaluator, dof layout) enter as parameters or as clearly marked models. -/

namespace Advection2D

/-- Cell-local index of the first dof on each face, from the advection2D
constructor initializer: face_first_dof{0, order, 0, (order+1)*order}. -/
def face_first_dof (order : ℕ) (face_id : Fin 4) : ℕ :=
  [0, order, 0, (order + 1) * order].getD face_id.val 0

/-- Cell-local dof stride along each face, from the constructor initializer:
face_dof_increment{order+1, order+1, 1, 1}. -/
def face_dof_increment (order : ℕ) (face_id : Fin 4) : ℕ :=
  [order + 1, order + 1, 1, 1].getD face_id.val 0

/-- The face-local to cell-local dof index mapping used throughout
assemble_system and update: face_first_dof[face_id] + i*face_dof_increment[face_id]. -/
def face_dof_map (order : ℕ) (face_id : Fin 4) (i : ℕ) : ℕ :=
  face_first_dof order face_id + i * face_dof_increment order face_id

/-- Modelled from the spec: fe.dofs_per_cell of the FE_DGQ element of degree
order (the element itself is deal.II code, outside src/); spec section 3 fixes
dofs_per_cell = (order+1)^2. -/
def dofs_per_cell (order : ℕ) : ℕ := (order + 1) ^ 2

/-- Modelled from the spec: fe_face.dofs_per_face for the face element of
degree order (the header declaring fe_face is not part of src/); spec
section 4.2 lets the face-local dof index range over 0..order, so a face
carries order+1 dofs. -/
def dofs_per_face (order : ℕ) : ℕ := order + 1

/-- Modelled from the spec: the global dof layout (spec section 3): each
cell's dofs_per_cell dofs are stored contiguously in the global vector at an
offset given by the cell index, so cell c's local dof ld has global index
c * dofs_per_cell + ld.  (cell->get_dof_indices itself is deal.II code.) -/
def global_dof (order cell_index local_dof : ℕ) : ℕ :=
  cell_index * dofs_per_cell order + local_dof

/- Local operator assembly (assemble_system).  A cell's quadrature data enters
as parameters: shape i q is fe_values.shape_value(i, qid), gradwind i q is the
contraction fe_values.shape_grad(i, qid) * wind(quadrature_point(qid)), and
jxw q is fe_values.JxW(qid).  Face quadrature data enters likewise. -/

/-- Local mass matrix of a cell, from the assemble_system loops:
l_mass(i,j) += shape_value(i,qid) * shape_value(j,qid) * JxW(qid). -/
def l_mass (n nq : ℕ) (shape : Fin n → Fin nq → ℚ) (jxw : Fin nq → ℚ) :
    Matrix (Fin n) (Fin n) ℚ :=
  Matrix.of fun i j => ∑ q, shape i q * shape j q * jxw q

/-- Local differentiation matrix of a cell, from the assemble_system loops:
l_diff(i,j) += (shape_grad(i,qid) * wind(point)) * shape_value(j,qid) * JxW(qid). -/
def l_diff (n nq : ℕ) (gradwind shape : Fin n → Fin nq → ℚ) (jxw : Fin nq → ℚ) :
    Matrix (Fin n) (Fin n) ℚ :=
  Matrix.of fun i j => ∑ q, gradwind i q * shape j q * jxw q

/-- Local flux matrix of one face, from the assemble_system face loops: for
face-local indices i_face, j_face in 0..dofs_per_face-1, the entry at the
mapped cell-local pair accumulates shape_value(i,qid)*shape_value(j,qid)*JxW(qid)
over face quadrature points; entries not touched by the mapping stay zero. -/
def l_flux (order n nqf : ℕ) (face_id : Fin 4) (fshape : ℕ → Fin nqf → ℚ)
    (fjxw : Fin nqf → ℚ) : Matrix (Fin n) (Fin n) ℚ :=
  Matrix.of fun i j =>
    ∑ i_face ∈ Finset.range (dofs_per_face order),
      ∑ j_face ∈ Finset.range (dofs_per_face order),
        if face_dof_map order face_id i_face = i.val ∧
            face_dof_map order face_id j_face = j.val then
          ∑ q, fshape i.val q * fshape j.val q * fjxw q
        else 0

/-- Executable matrix inverse over ℚ, modelling FullMatrix::invert: the
adjugate divided by the determinant. -/
def mat_inv (n : ℕ) (A : Matrix (Fin n) (Fin n) ℚ) : Matrix (Fin n) (Fin n) ℚ :=
  A.det⁻¹ • A.adjugate

/-- Per-cell body of assemble_system: build l_mass and l_diff from cell
quadrature data, invert the mass matrix (l_mass_inv.invert(l_mass) — the
library inversion is the only failure point, modelled as none exactly when the
mass matrix is singular; the code performs no check of its own), then produce
the stiffness matrix mass_inv*l_diff and, for each face, the lifting matrix
mass_inv*l_flux. -/
def assemble_cell (order n nq nqf : ℕ) (shape gradwind : Fin n → Fin nq → ℚ)
    (jxw : Fin nq → ℚ) (fshape : Fin 4 → ℕ → Fin nqf → ℚ)
    (fjxw : Fin 4 → Fin nqf → ℚ) :
    Option (Matrix (Fin n) (Fin n) ℚ × (Fin 4 → Matrix (Fin n) (Fin n) ℚ)) :=
  let m := l_mass n nq shape jxw
  if m.det = 0 then none
  else
    some (mat_inv n m * l_diff n nq gradwind shape jxw,
      fun face_id =>
        mat_inv n m * l_flux order n nqf face_id (fshape face_id) (fjxw face_id))

/- Container sizing (setup_system). -/

/-- Model of std::vector: the elements within the current size, plus the
reserved capacity. -/
structure CppVector (α : Type) where
  data : List α
  cap : ℕ

/-- Current size of a std::vector (its element count, not its capacity). -/
def CppVector.size {α : Type} (v : CppVector α) : ℕ := v.data.length

/-- std::vector::reserve: raises the capacity, never the size. -/
def CppVector.reserve {α : Type} (v : CppVector α) (n : ℕ) : CppVector α :=
  { v with cap := max v.cap n }

/-- Element type stored in stiff_mats and lift_mats: a FullMatrix of doubles,
modelled as rational rows. -/
def FullMatrixD : Type := List (List ℚ)

/-- The triangulation size set up by setup_system: GridGenerator::hyper_cube
followed by refine_global(5) gives 2^5 = 32 cells per direction, 1024 active
cells. -/
def n_active_cells : ℕ := 1024

/-- The operator containers owned by the advection2D object. -/
structure OperatorContainers where
  stiff_mats : CppVector FullMatrixD
  lift_mats : CppVector (Fin 4 → FullMatrixD)
  l_rhs : CppVector (List ℚ)

/-- Container state produced by setup_system: stiff_mats, lift_mats and l_rhs
are default-constructed (empty) and then only reserve(n_active_cells) is
called on each; the trailing range-for over l_rhs reinit-s each of its current
elements (of which there are none). -/
def setup_system_containers (order : ℕ) : OperatorContainers :=
  let stiff : CppVector FullMatrixD := CppVector.reserve ⟨[], 0⟩ n_active_cells
  let lift : CppVector (Fin 4 → FullMatrixD) := CppVector.reserve ⟨[], 0⟩ n_active_cells
  let rhs0 : CppVector (List ℚ) := CppVector.reserve ⟨[], 0⟩ n_active_cells
  let rhs : CppVector (List ℚ) :=
    { rhs0 with data := rhs0.data.map fun _ => List.replicate (dofs_per_cell order) 0 }
  { stiff_mats := stiff, lift_mats := lift, l_rhs := rhs }

/- Boundary-id assignment (set_boundary_ids).  For a boundary face with center
(fx, fy) the code runs, in order:
  if (fabs(fcenter(0)) < 1e-6) set_boundary_id(0);
  if (fabs(fcenter(1)) < 1e-6) set_boundary_id(1); else set_boundary_id(2);
so the y test is evaluated whatever the x test did, and the else belongs to
the second if only. -/

/-- The 1e-6 tolerance of set_boundary_ids. -/
def bc_eps : ℚ := 1 / 1000000

/-- The sequence of set_boundary_id calls performed on one boundary face with
center (fx, fy), in program order. -/
def boundary_id_writes (fx fy : ℚ) : List ℕ :=
  (if |fx| < bc_eps then [0] else []) ++ [if |fy| < bc_eps then 1 else 2]

/-- The boundary id a face is left with: the last id assigned to it. -/
def set_boundary_id_final (fx fy : ℚ) : ℕ := (boundary_id_writes fx fy).getLastD 0

/- Solution state and the face traversal of update. -/

/-- The two global solution vectors owned by the advection2D object. -/
structure SolState where
  g_solution : List ℚ
  gold_solution : List ℚ

/-- Mesh interface used by update: each cell index has, per face, either a
neighboring cell index or none (boundary face), and a
neighbor_of_neighbor query giving the shared face's id on the neighbor. -/
structure Mesh where
  n_cells : ℕ
  neighbor : ℕ → Fin 4 → Option ℕ
  neighbor_of_neighbor : ℕ → Fin 4 → Fin 4

/-- Error raised when update evaluates cell->neighbor(face_id)->index() on a
face that has no neighboring cell (a boundary face). -/
inductive UpdateError where
  | noNeighbor (cell : ℕ) (face : Fin 4)

/-- The owner/neighbor trace reads performed by the inner dof loop of update:
for i in 0..fe_face.dofs_per_face-1,
  phi          = gold_solution[face_first_dof[face_id] + i*face_dof_increment[face_id]]
  phi_neighbor = gold_solution[face_first_dof[face_id_neighbor] + i*face_dof_increment[face_id_neighbor]].
Note the indices are the bare cell-local mapped indices; the dof_ids fetched
by get_dof_indices are not consulted. -/
def face_reads (order : ℕ) (st : SolState) (face_id face_id_neighbor : Fin 4) :
    List (ℚ × ℚ) :=
  (List.range (dofs_per_face order)).map fun i =>
    (st.gold_solution.getD (face_dof_map order face_id i) 0,
     st.gold_solution.getD (face_dof_map order face_id_neighbor i) 0)

/-- One iteration of update's face loop, for cell c and face face_id: the code
first evaluates cell->neighbor(face_id)->index() (an invalid access when the
face is at the boundary, modelled as the error case), skips the face when that
index exceeds the cell's own index, and otherwise resolves
neighbor_of_neighbor, fetches both cells' dof indices, and performs the trace
reads — which it discards; no member of the object is written. -/
def process_face (order : ℕ) (m : Mesh) (st : SolState) (c : ℕ) (face_id : Fin 4) :
    Except UpdateError SolState :=
  match m.neighbor c face_id with
  | none => Except.error (UpdateError.noNeighbor c face_id)
  | some nb =>
    if nb > c then Except.ok st
    else
      let _reads := face_reads order st face_id (m.neighbor_of_neighbor c face_id)
      Except.ok st

/-- The (cell, face) pairs visited by update's two nested loops, in program
order: cells by increasing index, the four faces in order within each cell. -/
def face_items (n_cells : ℕ) : List (ℕ × Fin 4) :=
  (List.range n_cells).foldr
    (fun c acc => (c, (0 : Fin 4)) :: (c, 1) :: (c, 2) :: (c, 3) :: acc) []

/-- advection2D::update(time_step): iterate all cells and faces, running the
face body on each item.  The body never writes g_solution or gold_solution
(and time_step is never read), so the state is threaded through unchanged. -/
def update (order : ℕ) (m : Mesh) (st : SolState) (time_step : ℚ) :
    Except UpdateError SolState :=
  (face_items m.n_cells).foldlM (fun s cf => process_face order m s cf.1 cf.2) st

/-- Whether update's face loop runs its else branch (processes the face) for
cell c and face face_id: the face must have a neighbor, and the code skips
exactly when neighbor->index() > cell->index(). -/
def emits (m : Mesh) (c : ℕ) (face_id : Fin 4) : Bool :=
  match m.neighbor c face_id with
  | none => false
  | some nb => decide (nb ≤ c)

/-- Face opposite a given face under the deal.II 2-D convention
(0 = -x, 1 = +x, 2 = -y, 3 = +y). -/
def opposite_face (face_id : Fin 4) : Fin 4 :=
  [1, 0, 3, 2].getD face_id.val 0

/-- Modelled from the spec: position (column, row) of an active cell of the
mesh built by setup_system — GridGenerator::hyper_cube refined 5 times — under
deal.II's creation order (recursive z-order: child k of a parent sits at
offset (k mod 2, k div 2)); cell 0 is the corner cell at (0, 0).  The
triangulation itself is deal.II code, outside src/. -/
def cell_coord (idx : ℕ) : ℕ × ℕ :=
  (List.range 5).foldl
    (fun p l =>
      let d := idx / 4 ^ (4 - l) % 4
      (p.1 * 2 + d % 2, p.2 * 2 + d / 2)) (0, 0)

/-- Modelled from the spec: inverse of cell_coord — the index of the active
cell at position (x, y) of the 32-by-32 grid. -/
def cell_index_of (x y : ℕ) : ℕ :=
  (List.range 5).foldl
    (fun a l => a * 4 + 2 * (y / 2 ^ (4 - l) % 2) + x / 2 ^ (4 - l) % 2) 0

/-- Modelled from the spec: the mesh built by setup_system, a 32-by-32 grid of
cells on the unit square; faces ordered -x, +x, -y, +y; boundary faces have no
neighbor. -/
def hyper_cube_mesh : Mesh where
  n_cells := n_active_cells
  neighbor := fun c f =>
    let p := cell_coord c
    match f with
    | 0 => if p.1 = 0 then none else some (cell_index_of (p.1 - 1) p.2)
    | 1 => if p.1 = 31 then none else some (cell_index_of (p.1 + 1) p.2)
    | 2 => if p.2 = 0 then none else some (cell_index_of p.1 (p.2 - 1))
    | 3 => if p.2 = 31 then none else some (cell_index_of p.1 (p.2 + 1))
  neighbor_of_neighbor := fun _ f => opposite_face f

/- Small concrete instances used to evaluate the face traversal. -/

/-- A two-cell mesh on which every face is interior (each cell's neighbor on
every face is the other cell), so update runs to completion. -/
def mesh_pair : Mesh where
  n_cells := 2
  neighbor := fun c _ => some (1 - c)
  neighbor_of_neighbor := fun _ f => opposite_face f

/-- A concrete solution state for mesh_pair at order 0 (one dof per cell). -/
def stPair : SolState := { g_solution := [1, 1], gold_solution := [1, 1] }

/-- A concrete solution state for two cells at order 1 (four dofs per cell),
with all eight global dofs pairwise distinct. -/
def stC2 : SolState :=
  { g_solution := [10, 11, 12, 13, 14, 15, 16, 17]
  , gold_solution := [10, 11, 12, 13, 14, 15, 16, 17] }

/- The spec-side explicit DG step, for comparison with what update does. -/

/-- Matrix-vector product over ℚ on Fin d indices. -/
def matVecQ (d : ℕ) (A : Fin d → Fin d → ℚ) (x : Fin d → ℚ) : Fin d → ℚ :=
  fun i => ∑ j, A i j * x j

/-- Dot product over ℚ on Fin d indices. -/
def dotQ (d : ℕ) (x y : Fin d → ℚ) : ℚ := ∑ i, x i * y i

/-- Modelled from the spec: the Explicit Time Updater contract (spec
section 4.5): each cell's next slice is its previous slice plus
(stiffness * previous_slice - sum over faces of lifting[f] * flux[f]) * time_step,
with the per-face resolved flux vectors given as data. -/
def advanceSpec (dpc : ℕ) (stiff : ℕ → Fin dpc → Fin dpc → ℚ)
    (lift : ℕ → Fin 4 → Fin dpc → Fin dpc → ℚ) (fstar : ℕ → Fin 4 → Fin dpc → ℚ)
    (prev : ℕ → Fin dpc → ℚ) (time_step : ℚ) (c : ℕ) (i : Fin dpc) : ℚ :=
  prev c i +
    (matVecQ dpc (stiff c) (prev c) i -
      ∑ f : Fin 4, matVecQ dpc (lift c f) (fstar c f) i) * time_step

/-- Concrete operator data for the two-cell instance: stiffness 1, lifting 0,
fluxes 0, previous solution 1 on each cell's single dof. -/
def stiff_pair : ℕ → Fin 1 → Fin 1 → ℚ := fun _ _ _ => 1

/-- Lifting matrices of the two-cell instance: identically zero. -/
def lift_pair : ℕ → Fin 4 → Fin 1 → Fin 1 → ℚ := fun _ _ _ _ => 0

/-- Resolved flux data of the two-cell instance: identically zero. -/
def fstar_pair : ℕ → Fin 4 → Fin 1 → ℚ := fun _ _ _ => 0

/-- Previous solution of the two-cell instance, matching stPair.gold_solution. -/
def prev_pair : ℕ → Fin 1 → ℚ := fun _ _ => 1

/-- The next-step solution the spec's DG step produces on the two-cell
instance with time_step 1, flattened to the global vector layout. -/
def spec_next_pair : List ℚ :=
  [advanceSpec 1 stiff_pair lift_pair fstar_pair prev_pair 1 0 0,
   advanceSpec 1 stiff_pair lift_pair fstar_pair prev_pair 1 1 0]

/-- Degenerate-geometry quadrature data: a single quadrature point with
negative Jacobian-weighted weight. -/
def jxw_neg : Fin 1 → ℚ := fun _ => -1

/-- Constant unit shape data on one dof and one quadrature point. -/
def shape_one : Fin 1 → Fin 1 → ℚ := fun _ _ => 1

/- Theorems. -/

/-- The face-dof stride of every face is positive. -/
theorem face_dof_increment_pos (order : ℕ) (face_id : Fin 4) :
    0 < face_dof_increment order face_id := by
  fin_cases face_id <;> simp [face_dof_increment]

/-- The face-local to cell-local map of any face is injective (no bound on the
face-local index is even needed). -/
theorem face_dof_map_inj (order : ℕ) (face_id : Fin 4) {i j : ℕ}
    (h : face_dof_map order face_id i = face_dof_map order face_id j) : i = j := by
  unfold face_dof_map at h
  exact Nat.eq_of_mul_eq_mul_right (face_dof_increment_pos order face_id)
    (Nat.add_left_cancel h)

/-- Mapped indices of face-local dofs 0..order lie below (order+1)^2. -/
theorem face_dof_map_lt (order : ℕ) (face_id : Fin 4) {i : ℕ} (hi : i ≤ order) :
    face_dof_map order face_id i < dofs_per_cell order := by
  fin_cases face_id <;>
    simp only [face_dof_map, face_first_dof, face_dof_increment, dofs_per_cell,
      List.getD, Fin.val] <;>
    simp <;> nlinarith [hi]

/-- C4: for every polynomial order at least 1 and every face id, the map
i -> face_first_dof[face_id] + i*face_dof_increment[face_id] on face-local
indices 0..order is injective, lands in [0, (order+1)^2), and hits exactly
order+1 distinct cell-local dof indices. -/
theorem c4_face_dof_map_bijective (order : ℕ) (face_id : Fin 4) (i j : ℕ)
    (horder : 1 ≤ order) (hi : i ≤ order) (hj : j ≤ order) :
    (face_dof_map order face_id i = face_dof_map order face_id j → i = j) ∧
    face_dof_map order face_id i < dofs_per_cell order ∧
    ((Finset.range (order + 1)).image (face_dof_map order face_id)).card = order + 1 := by
  refine ⟨fun h => face_dof_map_inj order face_id h, face_dof_map_lt order face_id hi, ?_⟩
  rw [Finset.card_image_of_injOn fun a _ b _ h => face_dof_map_inj order face_id h,
    Finset.card_range]

/-- Witness for C4 at order 2, face 1, face-local indices 1 and 2. -/
theorem c4_witness :
    (face_dof_map 2 1 1 = face_dof_map 2 1 2 → 1 = 2) ∧
    face_dof_map 2 1 1 < dofs_per_cell 2 ∧
    ((Finset.range 3).image (face_dof_map 2 1)).card = 3 :=
  c4_face_dof_map_bijective 2 1 1 2 (by norm_num) (by norm_num) (by norm_num)

/-- C8: on a boundary face whose center passes the x=0 test, the y=0 test
still runs: if the center also passes the y=0 test the face is assigned id 0
and then id 1 (ending with 1); if it fails the y=0 test the face falls into
the else branch and is assigned id 0 and then id 2 (ending with 2, not 0).
The final id never depends on the x test. -/
theorem c8_boundary_id_if_if_else (fx fy : ℚ) (hx : |fx| < bc_eps) :
    (|fy| < bc_eps →
      boundary_id_writes fx fy = [0, 1] ∧ set_boundary_id_final fx fy = 1) ∧
    (¬ |fy| < bc_eps →
      boundary_id_writes fx fy = [0, 2] ∧ set_boundary_id_final fx fy = 2) ∧
    set_boundary_id_final fx fy = (if |fy| < bc_eps then 1 else 2) := by
  unfold set_boundary_id_final boundary_id_writes
  rw [if_pos hx]
  by_cases hy : |fy| < bc_eps <;> simp [hy]

/-- Witness for C8 at the corner face center (0, 0): both tests pass, the face
is tagged twice and is left with id 1. -/
theorem c8_witness : boundary_id_writes 0 0 = [0, 1] ∧ set_boundary_id_final 0 0 = 1 :=
  (c8_boundary_id_if_if_else 0 0 (by norm_num [bc_eps])).1 (by norm_num [bc_eps])

/-- C9 (refuted; the code is at fault): setup_system only reserves capacity,
so after it runs the stiff_mats, lift_mats and l_rhs containers all still have
size 0 while the mesh has 1024 active cells — every stiff_mats[c] and
lift_mats[c][f] write performed by assemble_system (already at cell index 0)
addresses an element beyond the current size. -/
theorem c9_setup_leaves_containers_empty :
    (setup_system_containers 1).stiff_mats.size = 0 ∧
    (setup_system_containers 1).stiff_mats.cap = n_active_cells ∧
    (setup_system_containers 1).lift_mats.size = 0 ∧
    (setup_system_containers 1).l_rhs.size = 0 ∧
    ¬ 0 < (setup_system_containers 1).stiff_mats.size ∧
    0 < n_active_cells := by
  refine ⟨rfl, rfl, rfl, rfl, by decide, by decide⟩

/-- C3 counterexample: on the two-cell mesh, iterating cell 0's face 0 finds
neighbor index 1, which is not lower than 0 — yet the face is skipped (the
code skips when the neighbor index is higher).  This refutes "a face is
skipped exactly when the neighbor's cell index is lower than the iterating
cell's index" and with it the lower-indexed-owner rule. -/
theorem c3_counterexample :
    mesh_pair.neighbor 0 0 = some 1 ∧ ¬ (1 : ℕ) < 0 ∧ emits mesh_pair 0 0 = false :=
  ⟨rfl, by omega, rfl⟩

/-- C3 as amended: update's traversal skips a face exactly when the neighbor's
index is higher, so each interior face is processed exactly once — by the
higher-indexed of its two cells, which therefore acts as owner. -/
theorem c3_interior_face_once_higher_owner (m : Mesh) (a b : ℕ) (fa fb : Fin 4)
    (hab : m.neighbor a fa = some b) (hba : m.neighbor b fb = some a) (hne : a ≠ b) :
    (emits m a fa = true ↔ b < a) ∧
    (emits m a fa = true ↔ emits m b fb = false) := by
  unfold emits
  rw [hab, hba]
  constructor
  · simp only [decide_eq_true_eq]
    omega
  · simp only [decide_eq_true_eq, decide_eq_false_iff_not]
    omega

/-- Witness for the amended C3 on the two-cell mesh: the face shared by cells
0 and 1 is processed from cell 1 (the higher index) and skipped from cell 0. -/
theorem c3_witness :
    (emits mesh_pair 1 0 = true ↔ 0 < 1) ∧
    (emits mesh_pair 1 0 = true ↔ emits mesh_pair 0 1 = false) :=
  c3_interior_face_once_higher_owner mesh_pair 1 0 0 1 rfl rfl (by omega)

set_option maxRecDepth 16384 in
/-- C10 (refuted; the code is at fault): on the mesh setup_system builds, the
very first face-loop iteration — cell 0, face 0, which lies on the x=0
boundary and has no neighboring cell — already evaluates
cell->neighbor(face_id)->index(); update performs the neighbor access on a
boundary face. -/
theorem c10_update_dereferences_boundary_neighbor :
    hyper_cube_mesh.neighbor 0 0 = none ∧
    update 1 hyper_cube_mesh { g_solution := [], gold_solution := [] } 1 =
      Except.error (UpdateError.noNeighbor 0 0) :=
  ⟨rfl, rfl⟩

/-- C1 (refuted; the code is at fault): run to completion on a mesh with only
interior faces, update returns the object state exactly as it received it —
no solution vector is written — while the spec's DG step on the matching
two-cell data (stiffness 1, zero lifted fluxes, time_step 1, previous value 1)
requires the next-step value 2 in each cell. -/
theorem c1_update_performs_no_dg_step :
    update 0 mesh_pair stPair 1 = Except.ok stPair ∧
    advanceSpec 1 stiff_pair lift_pair fstar_pair prev_pair 1 0 0 = 2 ∧
    stPair.g_solution = [1, 1] := by
  refine ⟨rfl, ?_, rfl⟩
  simp [advanceSpec, matVecQ, stiff_pair, lift_pair, fstar_pair, prev_pair]
  norm_num

/-- C2 (refuted; the code is at fault): the face-loop reads index
gold_solution with the bare cell-local mapped index, never translating it
through the cell's global dof indices.  Concretely, at order 1 with the
owner being cell 1 and face_id 2, the owner-side trace values read are
[10, 11] — entries 0 and 1 of the global vector, which belong to cell 0 —
whereas the owner's global dof for face-local index 0 is 4, holding 14. -/
theorem c2_face_reads_bypass_global_dof_ids :
    (face_reads 1 stC2 2 3).map Prod.fst = [(10 : ℚ), 11] ∧
    global_dof 1 1 (face_dof_map 1 2 0) = 4 ∧
    stC2.gold_solution.getD (global_dof 1 1 (face_dof_map 1 2 0)) 0 = 14 ∧
    (10 : ℚ) ≠ 14 := by
  refine ⟨rfl, rfl, rfl, by norm_num⟩

/-- The face body of update either raises the missing-neighbor error or
returns the state it was given, unchanged. -/
theorem process_face_ok_eq (order : ℕ) (m : Mesh) (st st2 : SolState) (c : ℕ)
    (face_id : Fin 4) (h : process_face order m st c face_id = Except.ok st2) :
    st2 = st := by
  unfold process_face at h
  split at h
  · exact Except.noConfusion h
  · split at h
    · injection h with h3
      exact h3.symm
    · have h2 : Except.ok (ε := UpdateError) st = Except.ok st2 := h
      injection h2 with h3
      exact h3.symm

/-- Folding the face body over any item list either errors or hands back the
starting state. -/
theorem fold_process_face_no_change (order : ℕ) (m : Mesh)
    (l : List (ℕ × Fin 4)) (st : SolState) :
    l.foldlM (fun s cf => process_face order m s cf.1 cf.2) st = Except.ok st ∨
    ∃ e, l.foldlM (fun s cf => process_face order m s cf.1 cf.2) st =
      Except.error e := by
  induction l generalizing st with
  | nil => exact Or.inl rfl
  | cons a l ih =>
    cases hp : process_face order m st a.1 a.2 with
    | error e =>
      refine Or.inr ⟨e, ?_⟩
      simp only [List.foldlM_cons, hp]
      rfl
    | ok st2 =>
      obtain rfl : st2 = st := process_face_ok_eq order m st st2 a.1 a.2 hp
      simp only [List.foldlM_cons, hp]
      exact ih _

/-- C5 counterexample: the claim — gold_solution preserved and g_solution
freshly set to the spec's next-step vector — fails on the two-cell instance:
the spec step yields [2, 2] there, but update returns the state with
g_solution still [1, 1]. -/
theorem c5_counterexample :
    ¬ update 0 mesh_pair stPair 1 =
      Except.ok { g_solution := spec_next_pair, gold_solution := stPair.gold_solution } := by
  have hv : spec_next_pair = [2, 2] := by
    simp [spec_next_pair, advanceSpec, matVecQ, stiff_pair, lift_pair, fstar_pair,
      prev_pair]
    norm_num
  intro h
  rw [hv, show update 0 mesh_pair stPair (1 : ℚ) = Except.ok stPair from rfl] at h
  norm_num [stPair] at h

/-- C5 as amended: update writes neither solution vector — whenever it
returns at all it returns its input state unchanged (and when it aborts on a
boundary face, no write has happened either, the body being write-free). -/
theorem c5_update_leaves_state_unchanged (order : ℕ) (m : Mesh) (st : SolState)
    (time_step : ℚ) :
    update order m st time_step = Except.ok st ∨
    ∃ e, update order m st time_step = Except.error e :=
  fold_process_face_no_change order m (face_items m.n_cells) st

/-- C6 counterexample: a degenerate cell — its single Jacobian-weighted
quadrature weight is negative — whose mass matrix is nevertheless invertible:
per-cell assembly reaches the inversion and succeeds; no degenerate-geometry
error is raised. -/
theorem c6_counterexample :
    jxw_neg 0 < 0 ∧
    (assemble_cell 0 1 1 1 shape_one shape_one jxw_neg (fun _ _ _ => 1)
      (fun _ _ => -1)).isSome = true := by
  constructor
  · norm_num [jxw_neg]
  · have hdet : (l_mass 1 1 shape_one jxw_neg).det = -1 := by
      rw [Matrix.det_fin_one]
      simp [l_mass, shape_one, jxw_neg]
    unfold assemble_cell
    simp only [hdet]
    norm_num

/-- C6 as amended: assemble_system performs no geometry check of its own —
the mass inversion is reached unconditionally on every cell, and per-cell
assembly fails exactly when the mass matrix is singular (the library
inversion's own failure), whatever the signs of the Jacobian-weighted
quadrature weights. -/
theorem c6_assemble_fails_iff_mass_singular (order n nq nqf : ℕ)
    (shape gradwind : Fin n → Fin nq → ℚ) (jxw : Fin nq → ℚ)
    (fshape : Fin 4 → ℕ → Fin nqf → ℚ) (fjxw : Fin 4 → Fin nqf → ℚ) :
    (assemble_cell order n nq nqf shape gradwind jxw fshape fjxw).isSome = true ↔
      (l_mass n nq shape jxw).det ≠ 0 := by
  unfold assemble_cell
  by_cases h : (l_mass n nq shape jxw).det = 0 <;> simp [h]

/-- The quadratic form of the local mass matrix is the quadrature sum of the
weighted squares of the interpolated nodal values. -/
theorem l_mass_quadform (n nq : ℕ) (shape : Fin n → Fin nq → ℚ)
    (jxw : Fin nq → ℚ) (x : Fin n → ℚ) :
    dotQ n x (matVecQ n (l_mass n nq shape jxw) x) =
      ∑ q, jxw q * (∑ k, x k * shape k q) ^ 2 := by
  unfold dotQ matVecQ l_mass
  simp only [Matrix.of_apply]
  have h1 : ∀ i : Fin n,
      (∑ j : Fin n, (∑ q : Fin nq, shape i q * shape j q * jxw q) * x j)
        = ∑ q : Fin nq, shape i q * jxw q * ∑ j : Fin n, x j * shape j q := by
    intro i
    calc ∑ j : Fin n, (∑ q : Fin nq, shape i q * shape j q * jxw q) * x j
        = ∑ j : Fin n, ∑ q : Fin nq, shape i q * shape j q * jxw q * x j :=
          Finset.sum_congr rfl fun j _ => Finset.sum_mul _ _ _
      _ = ∑ q : Fin nq, ∑ j : Fin n, shape i q * shape j q * jxw q * x j :=
          Finset.sum_comm
      _ = ∑ q : Fin nq, shape i q * jxw q * ∑ j : Fin n, x j * shape j q := by
          refine Finset.sum_congr rfl fun q _ => ?_
          rw [Finset.mul_sum]
          exact Finset.sum_congr rfl fun j _ => by ring
  calc ∑ i, x i * ∑ j, (∑ q, shape i q * shape j q * jxw q) * x j
      = ∑ i, x i * ∑ q, shape i q * jxw q * ∑ j, x j * shape j q :=
        Finset.sum_congr rfl fun i _ => by rw [h1 i]
    _ = ∑ i, ∑ q, x i * (shape i q * jxw q * ∑ j, x j * shape j q) :=
        Finset.sum_congr rfl fun i _ => Finset.mul_sum _ _ _
    _ = ∑ q, ∑ i, x i * (shape i q * jxw q * ∑ j, x j * shape j q) :=
        Finset.sum_comm
    _ = ∑ q, jxw q * (∑ k, x k * shape k q) ^ 2 := by
        refine Finset.sum_congr rfl fun q _ => ?_
        have h2 : ∀ i : Fin n, x i * (shape i q * jxw q * ∑ j, x j * shape j q)
            = x i * shape i q * (jxw q * ∑ j, x j * shape j q) := fun i => by ring
        rw [Finset.sum_congr rfl fun i _ => h2 i, ← Finset.sum_mul]
        ring

/-- C7: every local mass matrix assembled by assemble_system is symmetric,
and — granted positive Jacobian-weighted quadrature weights together with the
nodal-basis property of the external shape evaluator (no nonzero coefficient
vector interpolates to zero at every quadrature point) — positive definite:
its quadratic form is positive on nonzero vectors and every eigenvalue is
strictly positive. -/
theorem c7_mass_symmetric_positive_definite (n nq : ℕ)
    (shape : Fin n → Fin nq → ℚ) (jxw : Fin nq → ℚ) (i j : Fin n)
    (x : Fin n → ℚ) (μ : ℚ) (hw : ∀ q, 0 < jxw q)
    (hshape : x ≠ 0 → ∃ q, ∑ k, x k * shape k q ≠ 0) :
    l_mass n nq shape jxw i j = l_mass n nq shape jxw j i ∧
    (x ≠ 0 → 0 < dotQ n x (matVecQ n (l_mass n nq shape jxw) x)) ∧
    (x ≠ 0 → matVecQ n (l_mass n nq shape jxw) x = (fun k => μ * x k) → 0 < μ) := by
  have hsym : l_mass n nq shape jxw i j = l_mass n nq shape jxw j i := by
    show (∑ q, shape i q * shape j q * jxw q) = ∑ q, shape j q * shape i q * jxw q
    exact Finset.sum_congr rfl fun q _ => by ring
  have hquad : x ≠ 0 → 0 < dotQ n x (matVecQ n (l_mass n nq shape jxw) x) := by
    intro hx
    rw [l_mass_quadform]
    obtain ⟨q0, hq0⟩ := hshape hx
    refine Finset.sum_pos' (fun q _ => mul_nonneg (le_of_lt (hw q)) (sq_nonneg _))
      ⟨q0, Finset.mem_univ q0, mul_pos (hw q0) (pow_two_pos_of_ne_zero hq0)⟩
  refine ⟨hsym, hquad, ?_⟩
  intro hx heig
  have hxx : 0 < dotQ n x x := by
    unfold dotQ
    obtain ⟨k0, hk0⟩ : ∃ k, x k ≠ 0 := by
      by_contra hall
      push_neg at hall
      exact hx (funext fun k => hall k)
    exact Finset.sum_pos' (fun k _ => mul_self_nonneg _)
      ⟨k0, Finset.mem_univ k0, mul_self_pos.mpr hk0⟩
  have h2 : dotQ n x (matVecQ n (l_mass n nq shape jxw) x) = μ * dotQ n x x := by
    rw [heig]
    unfold dotQ
    rw [Finset.mul_sum]
    exact Finset.sum_congr rfl fun k _ => by ring
  have h3 := hquad hx
  rw [h2] at h3
  by_contra hμ
  push_neg at hμ
  nlinarith

/-- Witness for C7 on a one-dof cell with unit shape value and unit weight:
the mass matrix is the 1-by-1 identity, its quadratic form is positive and
its eigenvalue 1 is positive. -/
theorem c7_witness :
    l_mass 1 1 shape_one (fun _ => 1) 0 0 = l_mass 1 1 shape_one (fun _ => 1) 0 0 ∧
    ((fun _ : Fin 1 => (1 : ℚ)) ≠ 0 →
      0 < dotQ 1 (fun _ => 1) (matVecQ 1 (l_mass 1 1 shape_one fun _ => 1) fun _ => 1)) ∧
    ((fun _ : Fin 1 => (1 : ℚ)) ≠ 0 →
      matVecQ 1 (l_mass 1 1 shape_one fun _ => 1) (fun _ => 1) =
        (fun k => 1 * (fun _ : Fin 1 => (1 : ℚ)) k) → 0 < (1 : ℚ)) :=
  c7_mass_symmetric_positive_definite 1 1 shape_one (fun _ => 1) 0 0 (fun _ => 1) 1
    (fun _ => one_pos) (fun _ => ⟨0, by simp [shape_one]⟩)

end Advection2D
